import Mathlib

/-!
Verification development for the DNServer repository (src/dnsserver.py).

The resolution decision engine (`MiResolver.resolve`), its helpers
(`matches_pattern`, `dentro_de_franja`), the bounded activity log, the
per-pattern statistics counters and the administrative rule operations
(`add_block`, `remove_block`, `toggle_rule`) are shallowly embedded as pure
Lean functions.  Python strings are Lean `String`s manipulated through their
underlying `List Char`; the current time of day is a `Nat` counting seconds
since midnight; the global mutable state touched by `resolve`
(`estadisticas`, `logs`) is passed and returned explicitly; an uncaught
Python exception is an `Except.error` result.
-/

namespace DNServer

/-- The whitespace characters stripped by Python's `str.strip()`
(restricted to the ASCII whitespace characters). -/
def pyIsSpace (c : Char) : Bool :=
  c == ' ' || c == '\t' || c == '\n' || c == '\r' || c == '\x0b' || c == '\x0c'

/-- Python `s.strip()`: remove leading and trailing whitespace. -/
def pystrip (s : String) : String :=
  ⟨((s.data.dropWhile pyIsSpace).reverse.dropWhile pyIsSpace).reverse⟩

/-- Python `s.upper()` (restricted to ASCII letters, which is all the
source ever compares: `ip_redir.upper() == 'REFUSED'` at line 98). -/
def pyUpper (s : String) : String :=
  ⟨s.data.map Char.toUpper⟩

/-- Python `l.rstrip('.')` on the character list: drop every trailing `'.'`. -/
def rstripDotsL (l : List Char) : List Char :=
  (l.reverse.dropWhile (fun c => c == '.')).reverse

/-- Python `s.rstrip('.')`: drop every trailing `'.'` character. -/
def rstripDotsS (s : String) : String :=
  ⟨rstripDotsL s.data⟩

/-- Python `s.endswith('.')` (line 258 of the source). -/
def endsDot (s : String) : Bool :=
  match s.data.getLast? with
  | some c => c == '.'
  | none => false

/-- Shell-glob matching as performed by `fnmatch.fnmatch` on POSIX
(where `os.path.normcase` is the identity, so matching is case-sensitive):
`*` matches any run of characters, `?` matches exactly one character, any
other pattern character matches itself.  The first argument is the pattern,
the second the candidate string.  (`fnmatch`'s bracket character classes
are not modelled; no rule pattern in any claim uses them.) -/
def globFuel : Nat → List Char → List Char → Bool
  | 0, _, _ => false
  | _ + 1, [], [] => true
  | _ + 1, [], _ :: _ => false
  | f + 1, '*' :: ps, [] => globFuel f ps []
  | f + 1, '*' :: ps, c :: cs => globFuel f ps (c :: cs) || globFuel f ('*' :: ps) cs
  | _ + 1, '?' :: _, [] => false
  | f + 1, '?' :: ps, _ :: cs => globFuel f ps cs
  | _ + 1, _ :: _, [] => false
  | f + 1, p :: ps, c :: cs => p == c && globFuel f ps cs

/-- Glob matching; every recursive step of `globFuel` shrinks
`pattern.length + string.length` by at least one, so this fuel value never
reaches the out-of-fuel branch. -/
def glob (p s : List Char) : Bool :=
  globFuel (p.length + s.length + 1) p s

/-- `matches_pattern` (source lines 50-51):
`fnmatch.fnmatch(name.rstrip('.'), pattern.rstrip('.'))`. -/
def matches_pattern (name pattern : String) : Bool :=
  glob (rstripDotsL pattern.data) (rstripDotsL name.data)

/-- Split a character list on `':'`, as Python's `"%H:%M"` format anchors
on the literal colon. -/
def splitOnColon : List Char → List (List Char)
  | [] => [[]]
  | c :: cs =>
    if c = ':' then [] :: splitOnColon cs
    else
      match splitOnColon cs with
      | [] => [[c]]
      | g :: gs => (c :: g) :: gs

/-- Numeric value of the decimal digit character `c`. -/
def digitVal (c : Char) : Nat := c.toNat - 48

/-- The `%H` field of `datetime.strptime`: its compiled regular expression
is `2[0-3]|[0-1]\d|\d`, i.e. one digit, or two digits with value at
most 23. -/
def validHH : List Char → Bool
  | [c] => c.isDigit
  | [c1, c2] => c1.isDigit && c2.isDigit && decide (digitVal c1 * 10 + digitVal c2 ≤ 23)
  | _ => false

/-- The `%M` field of `datetime.strptime`: its compiled regular expression
is `[0-5]\d|\d`, i.e. one digit, or two digits whose first is `0`-`5`. -/
def validMM : List Char → Bool
  | [c] => c.isDigit
  | [c1, c2] => c1.isDigit && c2.isDigit && decide (digitVal c1 ≤ 5)
  | _ => false

/-- Decimal value of a digit string. -/
def numVal (l : List Char) : Nat :=
  l.foldl (fun a c => a * 10 + digitVal c) 0

/-- `datetime.datetime.strptime(s, '%H:%M').time()` as a partial parse:
the string must be exactly an `%H` field, a literal `':'` and an `%M`
field (the whole input must be consumed, ASCII digits).  Returns the
parsed (hour, minute) or `none` when Python would raise `ValueError`. -/
def parseHM (s : String) : Option (Nat × Nat) :=
  match splitOnColon s.data with
  | [h, m] =>
    if validHH h && validMM m then some (numVal h, numVal m) else none
  | _ => none

/-- `dentro_de_franja` (source lines 56-65), with the current time passed
explicitly as seconds since midnight.  The parsed bounds carry second 0,
so comparing `datetime.time` values lexicographically coincides with
comparing second counts. -/
def dentro_de_franja (start_str end_str : String) (now : Nat) : Bool :=
  match parseHM start_str, parseHM end_str with
  | some (sh, sm), some (eh, em) =>
    if sh * 3600 + sm * 60 ≤ eh * 3600 + em * 60 then
      decide (sh * 3600 + sm * 60 ≤ now) && decide (now ≤ eh * 3600 + em * 60)
    else
      decide (now ≥ sh * 3600 + sm * 60) || decide (now ≤ eh * 3600 + em * 60)
  | _, _ => true

/-- An IPv4 address as the four octet values produced by dnslib's
`A(...)` record constructor. -/
def IPv4 : Type := Nat × Nat × Nat × Nat

/-- The string-to-address parse performed by dnslib's `A(data)`:
`tuple(map(int, data.rstrip(".").split(".")))`, validated to be four
values in `0..255`.  Returns `none` when Python would raise.  (Python's
`int` also tolerates surrounding whitespace, signs and underscores; those
exotic forms are not modelled and no claim depends on them.) -/
def parseIPv4 (s : String) : Option IPv4 :=
  match splitOnDot (rstripDotsL s.data) with
  | [a, b, c, d] =>
    if a.all Char.isDigit && b.all Char.isDigit && c.all Char.isDigit && d.all Char.isDigit
        && !a.isEmpty && !b.isEmpty && !c.isEmpty && !d.isEmpty
        && decide (numVal a ≤ 255) && decide (numVal b ≤ 255)
        && decide (numVal c ≤ 255) && decide (numVal d ≤ 255) then
      some (numVal a, numVal b, numVal c, numVal d)
    else none
  | _ => none
where
  /-- Split a character list on `'.'`. -/
  splitOnDot : List Char → List (List Char)
    | [] => [[]]
    | c :: cs =>
      if c = '.' then [] :: splitOnDot cs
      else
        match splitOnDot cs with
        | [] => [[c]]
        | g :: gs => (c :: g) :: gs

/-- Render an IPv4 quad back to the dotted-decimal string
`socket.gethostbyname` returns. -/
def ipv4ToString (q : IPv4) : String :=
  toString q.1 ++ "." ++ toString q.2.1 ++ "." ++ toString q.2.2.1 ++ "." ++ toString q.2.2.2

/-- One entry of `global_bloqueos`: the dict
`{'pattern', 'ip', 'start', 'end', 'enabled'}` built by `add_block`
(source line 259).  The `'end'` key is spelled `endTime` because `end` is
a Lean keyword. -/
structure Rule where
  pattern : String
  ip : String
  start : String
  endTime : String
  enabled : Bool
deriving Repr, DecidableEq

/-- One entry of the `logs` list (source line 115):
`{'ts', 'client', 'query', 'action'}`. -/
structure Entry where
  ts : String
  client : String
  query : String
  action : String
deriving Repr, DecidableEq

/-- The abstract reply descriptor `resolve` builds: a TXT answer, an A
answer (address string, ttl), a REFUSED reply (rcode set, no answer
records), or the default NOERROR reply with no answer records. -/
inductive Reply where
  | txt (text : String) (ttl : Nat)
  | a (ip : String) (ttl : Nat)
  | refused
  | empty
deriving Repr, DecidableEq

/-- `LOG_LIMIT` (source line 22). -/
def LOG_LIMIT : Nat := 100

/-- Source lines 115-117: `logs.append(entry)` followed by
`if len(logs) > LOG_LIMIT: del logs[:-LOG_LIMIT]` (keep the last
`LOG_LIMIT` entries). -/
def pushLog (l : List Entry) (e : Entry) : List Entry :=
  if (l ++ [e]).length > LOG_LIMIT then (l ++ [e]).drop ((l ++ [e]).length - LOG_LIMIT)
  else l ++ [e]

/-- Source line 97: `estadisticas[pat] = estadisticas.get(pat, 0) + 1`,
on the counters viewed as a total map with default 0. -/
def incStats (stats : String → Nat) (pat : String) : String → Nat :=
  fun p => if p = pat then stats p + 1 else stats p

/-- The per-rule test of the scan at source lines 87-96: the rule is taken
unless it is disabled, its pattern does not match, or both time bounds are
non-empty strings (Python truthiness) and the window check fails. -/
def rulePasses (domain : String) (now : Nat) (r : Rule) : Bool :=
  r.enabled && matches_pattern domain r.pattern &&
    !(!(r.start == "") && !(r.endTime == "") && !dentro_de_franja r.start r.endTime now)

/-- The outcome of one `resolve` call: the reply (or the uncaught
exception Python would raise), the final value of the local `action`
variable, and the new values of the global `estadisticas` and `logs`. -/
structure ResolveOut where
  result : Except String Reply
  action : String
  stats : String → Nat
  logs : List Entry

/-- `MiResolver.resolve` (source lines 71-118).  The inputs are the
pieces of process state the method reads (`maintenance_mode`,
`global_bloqueos`, `estadisticas`, `logs`), the parsed query
(`domain` = `str(request.q.qname)`, `qtypeS` = `QTYPE[request.q.qtype]`,
`client`), the formatted timestamp `ts`, the current time of day `now` in
seconds, and `upstream` standing for `socket.gethostbyname` (success is
an address quad, failure the exception text).  The only uncaught
exception path is `A(ip_redir)` at line 102 with an unparseable target;
there Python has already incremented the counter but the log append at
line 115 is skipped, and the `action` local still holds its initial
value `'resolved'` from line 78. -/
def resolve (maintenance : Bool) (rules : List Rule)
    (domain qtypeS ts client : String) (now : Nat)
    (upstream : String → Except String IPv4)
    (stats : String → Nat) (logs : List Entry) : ResolveOut :=
  let q := domain ++ " (" ++ qtypeS ++ ")"
  if maintenance then
    let action := "maintenance mode"
    ⟨.ok (.txt "PabloDNS: Estamos en mantenimiento" 60), action, stats,
      pushLog logs ⟨ts, client, q, action⟩⟩
  else
    match List.find? (rulePasses domain now) rules with
    | some r =>
      let pat := r.pattern
      let ipr := pystrip r.ip
      let stats' := incStats stats pat
      if pyUpper ipr = "REFUSED" then
        let action := "refused @ " ++ pat
        ⟨.ok .refused, action, stats', pushLog logs ⟨ts, client, q, action⟩⟩
      else
        match parseIPv4 ipr with
        | some _ =>
          let action := "redirect to " ++ ipr ++ " @ " ++ pat
          ⟨.ok (.a ipr 60), action, stats', pushLog logs ⟨ts, client, q, action⟩⟩
        | none =>
          ⟨.error ("ValueError: invalid IPv4 literal " ++ ipr), "resolved", stats', logs⟩
    | none =>
      match upstream (rstripDotsS domain) with
      | .ok ip =>
        let action := "resolved external " ++ ipv4ToString ip
        ⟨.ok (.a (ipv4ToString ip) 60), action, stats, pushLog logs ⟨ts, client, q, action⟩⟩
      | .error e =>
        let action := "error " ++ e
        ⟨.ok .empty, action, stats, pushLog logs ⟨ts, client, q, action⟩⟩

/-- `add_block` (source lines 253-263): strip the submitted pattern and
target, append a trailing `'.'` to the pattern when absent, and append
the new enabled rule to the rule list. -/
def add_block (pat0 ip0 start0 end0 : String) (rules : List Rule) : List Rule :=
  let pat1 := pystrip pat0
  let pat := if endsDot pat1 then pat1 else pat1 ++ "."
  rules ++ [⟨pat, pystrip ip0, start0, end0, true⟩]

/-- `remove_block` (source lines 265-274): keep the rules whose pattern
differs from the submitted one. -/
def remove_block (pat : String) (rules : List Rule) : List Rule :=
  rules.filter (fun r => r.pattern != pat)

/-- `toggle_rule` (source lines 276-289): flip `enabled` on the first
rule with exactly the submitted pattern; no-op when absent. -/
def toggle_rule (pat : String) : List Rule → List Rule
  | [] => []
  | r :: rs =>
    if r.pattern = pat then { r with enabled := !r.enabled } :: rs
    else r :: toggle_rule pat rs

/-- TimeWindowEvaluator reference definition, following the words of
spec section 4.2: empty or unparseable bounds mean always active (fail
open); `start <= end` means active iff `start <= now <= end`, both ends
inclusive; `start > end` (wrap past midnight) means active iff
`now >= start` or `now <= end`. -/
def isActiveSpec (start_str end_str : String) (now : Nat) : Bool :=
  if start_str = "" ∨ end_str = "" then true
  else
    match parseHM start_str, parseHM end_str with
    | some (sh, sm), some (eh, em) =>
      if sh * 3600 + sm * 60 ≤ eh * 3600 + em * 60 then
        decide (sh * 3600 + sm * 60 ≤ now ∧ now ≤ eh * 3600 + em * 60)
      else
        decide (now ≥ sh * 3600 + sm * 60 ∨ now ≤ eh * 3600 + em * 60)
    | _, _ => true

/-- PatternMatcher reference definition following the words of claim C6:
strip a single trailing separator character from each input and compare
with glob semantics. -/
def matchesSingleStrip (name pattern : String) : Bool :=
  glob (stripOneDot pattern.data) (stripOneDot name.data)
where
  /-- Strip exactly one trailing `'.'`, when present. -/
  stripOneDot (l : List Char) : List Char :=
    if l.getLast? == some '.' then l.dropLast else l

/-- State visible to the unsynchronized statistics code: the
`estadisticas` mapping (total with default 0) and the thread-local
intermediate value the incrementing thread holds between evaluating
`estadisticas.get(pat, 0)` and storing `estadisticas[pat]` (both at
source line 97). -/
structure IncState where
  stats : String → Nat
  reg : Nat

/-- The individually-atomic operations the interpreter interleaves:
the read half and the write half of the line-97 increment, and
`estadisticas.clear()` from `reset_stats` (source line 294). -/
inductive StatsAction where
  | readCount (pat : String)
  | writeCount (pat : String)
  | resetAll

/-- Effect of one atomic operation. -/
def statsStep (st : IncState) : StatsAction → IncState
  | .readCount pat => { st with reg := st.stats pat }
  | .writeCount pat =>
    { st with stats := fun q => if q = pat then st.reg + 1 else st.stats q }
  | .resetAll => { st with stats := fun _ => 0 }

/-- Run a sequence of atomic operations (one interleaving). -/
def runStats (init : IncState) (l : List StatsAction) : IncState :=
  l.foldl statsStep init

/-! Helper lemmas shared by the claim theorems. -/

theorem parseHM_empty : parseHM "" = none := rfl

theorem find?_prefix_none {α : Type} (p : α → Bool) (pre rest : List α) (a : α)
    (hpre : ∀ x ∈ pre, p x = false) (ha : p a = true) :
    List.find? p (pre ++ a :: rest) = some a := by
  induction pre with
  | nil => simpa using List.find?_cons_of_pos rest ha
  | cons b bs ih =>
    rw [List.cons_append, List.find?_cons_of_neg _ (by simp [hpre b (by simp)])]
    exact ih (fun x hx => hpre x (by simp [hx]))

/-- The last `n` elements of a list. -/
def takeLast {α : Type} (n : Nat) (l : List α) : List α := l.drop (l.length - n)

theorem takeLast_of_le {α : Type} {n : Nat} {l : List α} (h : l.length ≤ n) :
    takeLast n l = l := by
  unfold takeLast
  rw [Nat.sub_eq_zero_of_le h, List.drop_zero]

theorem takeLast_append_of_le {α : Type} (n : Nat) (l₁ l₂ : List α) (h : n ≤ l₂.length) :
    takeLast n (l₁ ++ l₂) = takeLast n l₂ := by
  unfold takeLast
  rw [List.length_append]
  rw [show l₁.length + l₂.length - n = l₁.length + (l₂.length - n) by omega]
  rw [List.drop_append]

theorem takeLast_takeLast_append {α : Type} (n : Nat) (l es : List α) :
    takeLast n (takeLast n l ++ es) = takeLast n (l ++ es) := by
  by_cases h : l.length ≤ n
  · rw [takeLast_of_le h]
  · have hn : n ≤ l.length := le_of_not_le h
    have hlen : (takeLast n l).length = n := by
      unfold takeLast; rw [List.length_drop]; omega
    have hcond : n ≤ (takeLast n l ++ es).length := by
      rw [List.length_append, hlen]; omega
    rw [← takeLast_append_of_le n (List.take (l.length - n) l) (takeLast n l ++ es) hcond]
    rw [show List.take (l.length - n) l ++ (takeLast n l ++ es) = l ++ es from by
      rw [← List.append_assoc]
      unfold takeLast
      rw [List.take_append_drop]]

theorem pushLog_eq_takeLast (l : List Entry) (e : Entry) :
    pushLog l e = takeLast LOG_LIMIT (l ++ [e]) := by
  unfold pushLog takeLast LOG_LIMIT
  split
  · rfl
  · next h => rw [show (l ++ [e]).length - 100 = 0 by omega, List.drop_zero]

theorem pushLog_length_le (l : List Entry) (e : Entry) :
    (pushLog l e).length ≤ LOG_LIMIT := by
  unfold pushLog LOG_LIMIT
  split
  · next h => rw [List.length_drop]; omega
  · next h => omega

theorem foldl_pushLog (es : List Entry) : ∀ init : List Entry, init.length ≤ LOG_LIMIT →
    List.foldl pushLog init es = takeLast LOG_LIMIT (init ++ es) := by
  induction es with
  | nil =>
    intro init h
    rw [List.foldl_nil, List.append_nil, takeLast_of_le h]
  | cons e es ih =>
    intro init h
    rw [List.foldl_cons, ih _ (pushLog_length_le init e), pushLog_eq_takeLast,
        takeLast_takeLast_append, List.append_assoc, List.singleton_append]

theorem toUpper_of_pyIsSpace {c : Char} (h : pyIsSpace c = true) : c.toUpper = c := by
  simp only [pyIsSpace, Bool.or_eq_true, beq_iff_eq] at h
  rcases h with ((((h | h) | h) | h) | h) | h <;> subst h <;> decide

theorem pyIsSpace_eq_false_of_toUpper {c u : Char} (hu : c.toUpper = u)
    (hns : pyIsSpace u = false) : pyIsSpace c = false := by
  by_contra hcon
  rw [Bool.not_eq_false] at hcon
  rw [toUpper_of_pyIsSpace hcon] at hu
  subst hu
  rw [hcon] at hns
  exact absurd hns (by decide)

/-- A string that upper-cases to `"REFUSED"` contains no whitespace, so
Python's `.strip()` leaves it unchanged. -/
theorem pystrip_eq_self_of_pyUpper_refused {t : String} (h : pyUpper t = "REFUSED") :
    pystrip t = t := by
  have hd : t.data.map Char.toUpper = "REFUSED".data := congrArg String.data h
  have hrev : t.data.reverse.map Char.toUpper = ['D','E','S','U','F','E','R'] := by
    rw [List.map_reverse, hd]; rfl
  obtain ⟨c, cs, hcons⟩ : ∃ c cs, t.data = c :: cs := by
    cases h' : t.data with
    | nil => rw [h'] at hd; exact absurd hd (by decide)
    | cons a l => exact ⟨a, l, rfl⟩
  obtain ⟨d, ds, hrcons⟩ : ∃ d ds, t.data.reverse = d :: ds := by
    cases h' : t.data.reverse with
    | nil => rw [h'] at hrev; exact absurd hrev (by decide)
    | cons a l => exact ⟨a, l, rfl⟩
  have hR : "REFUSED".data = 'R' :: ['E','F','U','S','E','D'] := rfl
  rw [hcons, List.map_cons, hR] at hd
  injection hd with h1 _
  rw [hrcons, List.map_cons] at hrev
  injection hrev with hD _
  have hc : pyIsSpace c = false := pyIsSpace_eq_false_of_toUpper h1 (by decide)
  have hdns : pyIsSpace d = false := pyIsSpace_eq_false_of_toUpper hD (by decide)
  unfold pystrip
  rw [hcons, List.dropWhile_cons, if_neg (by simp [hc]), ← hcons, hrcons,
      List.dropWhile_cons, if_neg (by simp [hdns]), ← hrcons, List.reverse_reverse]

/-! The claim theorems. -/

/-- C1: for every query processed while the maintenance flag is true,
`resolve` returns the fixed TXT maintenance answer, leaves the statistics
map unchanged, appends exactly one activity-log entry whose action is
`"maintenance mode"`, and never consults the rule set (the result is the
same for any two rule lists). -/
theorem maintenance_mode_short_circuit (rules rules' : List Rule)
    (domain qtypeS ts client : String) (now : Nat)
    (upstream : String → Except String IPv4) (stats : String → Nat) (logs : List Entry) :
    resolve true rules domain qtypeS ts client now upstream stats logs
      = ⟨.ok (.txt "PabloDNS: Estamos en mantenimiento" 60), "maintenance mode", stats,
          pushLog logs ⟨ts, client, domain ++ " (" ++ qtypeS ++ ")", "maintenance mode"⟩⟩
    ∧ resolve true rules domain qtypeS ts client now upstream stats logs
      = resolve true rules' domain qtypeS ts client now upstream stats logs :=
  ⟨rfl, rfl⟩

/-- C3: the source time-window check `dentro_de_franja` coincides, for
every start string, end string and current time, with the spec's
reference definition: empty or unparseable bounds fail open; when
`start <= end` the window is `start <= now <= end` with inclusive
boundaries; when `start > end` it wraps past midnight and is
`now >= start` or `now <= end`. -/
theorem dentro_de_franja_eq_spec :
    ∀ (start_str end_str : String) (now : Nat),
      dentro_de_franja start_str end_str now = isActiveSpec start_str end_str now := by
  intro s e now
  unfold dentro_de_franja isActiveSpec
  by_cases hs : s = ""
  · subst hs
    rw [parseHM_empty, if_pos (Or.inl rfl)]
  · by_cases he : e = ""
    · subst he
      rw [parseHM_empty, if_pos (Or.inr rfl)]
      cases parseHM s with
      | none => rfl
      | some v => obtain ⟨sh, sm⟩ := v; rfl
    · rw [if_neg (by simp [hs, he])]
      cases parseHM s with
      | none => rfl
      | some v =>
        obtain ⟨sh, sm⟩ := v
        cases parseHM e with
        | none => rfl
        | some w =>
          obtain ⟨eh, em⟩ := w
          by_cases hle : sh * 3600 + sm * 60 ≤ eh * 3600 + em * 60 <;>
            simp [hle, Bool.decide_and, Bool.decide_or]

/-- C6 counterexample: `matches_pattern` does not strip a single trailing
separator, it strips them all.  On name `"a.."` against pattern `"a"` the
source returns a match, while the claimed single-strip semantics compares
`"a."` against `"a"` and returns no match. -/
theorem matches_pattern_single_strip_counterexample :
    matches_pattern "a.." "a" = true ∧ matchesSingleStrip "a.." "a" = false :=
  ⟨rfl, rfl⟩

/-- C6 amended: `matches_pattern` normalizes both inputs by stripping ALL
trailing separator characters before the glob comparison, so appending a
trailing dot to the name or to the pattern never changes the result. -/
theorem matches_pattern_strips_all_trailing_dots (name pattern : String) :
    matches_pattern (name ++ ".") pattern = matches_pattern name pattern
    ∧ matches_pattern name (pattern ++ ".") = matches_pattern name pattern := by
  have h : ∀ s : String, rstripDotsL (s ++ ".").data = rstripDotsL s.data := by
    intro s
    unfold rstripDotsL
    rw [String.data_append]
    simp [List.dropWhile]
  constructor <;> unfold matches_pattern <;> rw [h]

/-- Initial statistics state for the C9 interleaving: the counter of
pattern `"p"` holds 1 from an earlier completed increment. -/
def raceInit : IncState := ⟨fun q => if q = "p" then 1 else 0, 0⟩

/-- C9: the source takes no lock around the line-97 read-modify-write of
`estadisticas` or the line-294 `clear()`, so a reset interleaved between
the read and the write of one increment yields the count 2 — different
from both serializations (increment fully first gives 0 after the reset,
reset fully first gives 1), i.e. the increment is not atomic with respect
to the reset. -/
theorem stats_reset_not_mutually_exclusive :
    (runStats raceInit [.readCount "p", .resetAll, .writeCount "p"]).stats "p" = 2
    ∧ (runStats raceInit [.readCount "p", .writeCount "p", .resetAll]).stats "p" = 0
    ∧ (runStats raceInit [.resetAll, .readCount "p", .writeCount "p"]).stats "p" = 1
    ∧ (2 : Nat) ≠ 0 ∧ (2 : Nat) ≠ 1 :=
  ⟨rfl, rfl, rfl, by decide, by decide⟩

theorem endsDot_append_dot (s : String) : endsDot (s ++ ".") = true := by
  unfold endsDot
  rw [String.data_append]
  rw [show ".".data = ['.'] from rfl, List.getLast?_concat]
  rfl

/-- C10: `add_block` stores the submitted pattern with a trailing dot
appended when absent, so every stored pattern is dot-terminated; and on a
list of dot-terminated rules, `remove_block` and `toggle_rule` invoked
with a pattern that is not dot-terminated are no-ops (they match stored
patterns by exact string equality). -/
theorem add_block_normalizes (pat0 ip0 start0 end0 q : String) (rules : List Rule)
    (hq : endsDot q = false) (hall : ∀ r ∈ rules, endsDot r.pattern = true) :
    (∃ r, add_block pat0 ip0 start0 end0 rules = rules ++ [r] ∧ endsDot r.pattern = true)
    ∧ remove_block q rules = rules
    ∧ toggle_rule q rules = rules := by
  have hne : ∀ r ∈ rules, r.pattern ≠ q := by
    intro r hr hcon
    have := hall r hr
    rw [hcon, hq] at this
    exact absurd this (by decide)
  refine ⟨⟨_, rfl, ?_⟩, ?_, ?_⟩
  · by_cases h : endsDot (pystrip pat0) <;> simp [h, endsDot_append_dot]
  · exact List.filter_eq_self.mpr (fun r hr => by simp [bne_iff_ne, hne r hr])
  · induction rules with
    | nil => rfl
    | cons r rs ih =>
      unfold toggle_rule
      rw [if_neg (hne r (by simp))]
      rw [ih (fun x hx => hall x (by simp [hx])) (fun x hx => hne x (by simp [hx]))]

/-- Truth test for an Except result being a success, used to state that a
call returns rather than raises. -/
def exceptIsOk : Except String Reply → Bool
  | .ok _ => true
  | .error _ => false

/-- C2: with no passing rule before it, the earlier of two enabled,
matching, time-active rules decides the query: its counter is incremented
by exactly one, any other pattern's counter (in particular the later
rule's) is unchanged, and the chosen action is the earlier rule's (its
REFUSED or redirect action at its pattern).  The earlier rule's target is
assumed well-formed (REFUSED or a parseable IPv4 literal), as the data
model requires of every rule. -/
theorem first_match_wins (pre mid post : List Rule) (r1 r2 : Rule)
    (domain qtypeS ts client : String) (now : Nat)
    (upstream : String → Except String IPv4) (stats : String → Nat) (logs : List Entry)
    (p : String)
    (hpre : ∀ r ∈ pre, rulePasses domain now r = false)
    (h1 : rulePasses domain now r1 = true)
    (h2 : rulePasses domain now r2 = true)
    (hp : p ≠ r1.pattern)
    (hwf : pyUpper (pystrip r1.ip) = "REFUSED" ∨ (parseIPv4 (pystrip r1.ip)).isSome = true) :
    (resolve false (pre ++ r1 :: (mid ++ r2 :: post)) domain qtypeS ts client now
        upstream stats logs).stats r1.pattern = stats r1.pattern + 1
    ∧ (resolve false (pre ++ r1 :: (mid ++ r2 :: post)) domain qtypeS ts client now
        upstream stats logs).stats p = stats p
    ∧ ((resolve false (pre ++ r1 :: (mid ++ r2 :: post)) domain qtypeS ts client now
          upstream stats logs).action = "refused @ " ++ r1.pattern
       ∨ (resolve false (pre ++ r1 :: (mid ++ r2 :: post)) domain qtypeS ts client now
          upstream stats logs).action = "redirect to " ++ pystrip r1.ip ++ " @ " ++ r1.pattern) := by
  have hfind : List.find? (rulePasses domain now) (pre ++ r1 :: (mid ++ r2 :: post)) = some r1 :=
    find?_prefix_none _ pre _ r1 hpre h1
  by_cases hru : pyUpper (pystrip r1.ip) = "REFUSED"
  · simp [resolve, hfind, hru, incStats, hp]
  · rcases hwf with h | h
    · exact absurd h hru
    · obtain ⟨q, hq⟩ := Option.isSome_iff_exists.mp h
      simp [resolve, hfind, hru, hq, incStats, hp]

/-- C4: with no winning rule, `resolve` calls the upstream resolver on the
domain with trailing separators stripped; on success it answers with an A
record for the resolved address with ttl 60 and action
`"resolved external {address}"`, on failure it answers with the default
NOERROR reply with no answer records and action `"error {details}"`; in
both cases the statistics map is unchanged. -/
theorem upstream_fallback (rules : List Rule)
    (domain qtypeS ts client : String) (now : Nat)
    (upstream : String → Except String IPv4) (stats : String → Nat) (logs : List Entry)
    (hno : ∀ r ∈ rules, rulePasses domain now r = false) :
    resolve false rules domain qtypeS ts client now upstream stats logs
      = match upstream (rstripDotsS domain) with
        | .ok ip =>
          ⟨.ok (.a (ipv4ToString ip) 60), "resolved external " ++ ipv4ToString ip, stats,
            pushLog logs ⟨ts, client, domain ++ " (" ++ qtypeS ++ ")",
              "resolved external " ++ ipv4ToString ip⟩⟩
        | .error e =>
          ⟨.ok .empty, "error " ++ e, stats,
            pushLog logs ⟨ts, client, domain ++ " (" ++ qtypeS ++ ")", "error " ++ e⟩⟩ := by
  have hfind : List.find? (rulePasses domain now) rules = none :=
    List.find?_eq_none.mpr (by simpa using hno)
  cases hu : upstream (rstripDotsS domain) <;> simp [resolve, hfind, hu]

def badRule : Rule := ⟨"a.", "banana", "", "", true⟩

/-- An upstream resolver that always fails, used by concrete instances. -/
def upErrW : String → Except String IPv4 := fun _ => .error "dns"

/-- C5 counterexample: a matching enabled rule whose target is the
arbitrary string `"banana"` makes `resolve` raise (dnslib's `A(...)` at
source line 102 throws `ValueError`, outside any try block), so resolve
does not return a defined reply for every rule-set content. -/
theorem resolve_raises_on_bad_target :
    (resolve false [badRule] "a." "A" "t" "c" 0 upErrW (fun _ => 0) []).result
      = .error "ValueError: invalid IPv4 literal banana" := rfl

/-- C5 amended: `resolve` returns a defined reply (never raises) for every
input combination in which each rule's stripped target is REFUSED
(case-insensitively) or a parseable IPv4 literal; arbitrary other target
strings can make it raise, as the counterexample shows. -/
theorem resolve_total_on_wellformed_targets (maintenance : Bool) (rules : List Rule)
    (domain qtypeS ts client : String) (now : Nat)
    (upstream : String → Except String IPv4) (stats : String → Nat) (logs : List Entry)
    (hwf : ∀ r ∈ rules,
      pyUpper (pystrip r.ip) = "REFUSED" ∨ (parseIPv4 (pystrip r.ip)).isSome = true) :
    exceptIsOk (resolve maintenance rules domain qtypeS ts client now
      upstream stats logs).result = true := by
  cases maintenance with
  | true => rfl
  | false =>
    cases hfind : List.find? (rulePasses domain now) rules with
    | none => cases hu : upstream (rstripDotsS domain) <;> simp [resolve, hfind, hu, exceptIsOk]
    | some r =>
      by_cases hru : pyUpper (pystrip r.ip) = "REFUSED"
      · simp [resolve, hfind, hru, exceptIsOk]
      · rcases hwf r (List.mem_of_find?_eq_some hfind) with h | h
        · exact absurd h hru
        · obtain ⟨q, hq⟩ := Option.isSome_iff_exists.mp h
          simp [resolve, hfind, hru, hq, exceptIsOk]

/-- C7: when the winning rule's target equals REFUSED case-insensitively
(any casing), `resolve` produces a REFUSED reply carrying no answer
records (never an A record), the action `"refused @ {pattern}"`, one log
entry with that action, and still increments that rule's counter. -/
theorem refused_target_reply (pre post : List Rule) (r : Rule)
    (domain qtypeS ts client : String) (now : Nat)
    (upstream : String → Except String IPv4) (stats : String → Nat) (logs : List Entry)
    (hpre : ∀ x ∈ pre, rulePasses domain now x = false)
    (hr : rulePasses domain now r = true)
    (href : pyUpper r.ip = "REFUSED") :
    resolve false (pre ++ r :: post) domain qtypeS ts client now upstream stats logs
      = ⟨.ok .refused, "refused @ " ++ r.pattern, incStats stats r.pattern,
          pushLog logs ⟨ts, client, domain ++ " (" ++ qtypeS ++ ")",
            "refused @ " ++ r.pattern⟩⟩
    ∧ (resolve false (pre ++ r :: post) domain qtypeS ts client now upstream stats
        logs).stats r.pattern = stats r.pattern + 1 := by
  have hstrip : pystrip r.ip = r.ip := pystrip_eq_self_of_pyUpper_refused href
  have hfind : List.find? (rulePasses domain now) (pre ++ r :: post) = some r :=
    find?_prefix_none _ pre _ r hpre hr
  constructor
  · simp [resolve, hfind, hstrip, href]
  · simp [resolve, hfind, hstrip, href, incStats]

/-- C8: every `resolve` call that returns appends exactly one entry to the
activity log (carrying the chosen action) with oldest-first eviction, the
resulting log never holds more than 100 entries, and folding 150 appends
into an empty log leaves exactly the last 100 entries in append order. -/
theorem activity_log_bounded (maintenance : Bool) (rules : List Rule)
    (domain qtypeS ts client : String) (now : Nat)
    (upstream : String → Except String IPv4) (stats : String → Nat) (logs : List Entry)
    (es : List Entry)
    (hok : exceptIsOk (resolve maintenance rules domain qtypeS ts client now
      upstream stats logs).result = true)
    (hes : es.length = 150) :
    (resolve maintenance rules domain qtypeS ts client now upstream stats logs).logs
      = pushLog logs ⟨ts, client, domain ++ " (" ++ qtypeS ++ ")",
          (resolve maintenance rules domain qtypeS ts client now upstream stats logs).action⟩
    ∧ (resolve maintenance rules domain qtypeS ts client now upstream stats
        logs).logs.length ≤ 100
    ∧ List.foldl pushLog [] es = es.drop 50 := by
  have h150 : List.foldl pushLog [] es = es.drop 50 := by
    rw [foldl_pushLog es [] (by simp [LOG_LIMIT])]
    unfold takeLast LOG_LIMIT
    rw [List.nil_append, hes]
  refine ⟨?_, ?_, h150⟩
  all_goals
    cases maintenance with
    | true => first | rfl | exact pushLog_length_le logs _
    | false =>
      cases hfind : List.find? (rulePasses domain now) rules with
      | none =>
        cases hu : upstream (rstripDotsS domain) <;>
          simp [resolve, hfind, hu] <;>
          exact pushLog_length_le logs _
      | some r =>
        by_cases hru : pyUpper (pystrip r.ip) = "REFUSED"
        · simp [resolve, hfind, hru] <;> exact pushLog_length_le logs _
        · cases hq : parseIPv4 (pystrip r.ip) with
          | some q => simp [resolve, hfind, hru, hq] <;> exact pushLog_length_le logs _
          | none =>
            exfalso
            rw [show exceptIsOk (resolve false rules domain qtypeS ts client now
              upstream stats logs).result = false from by
                simp [resolve, hfind, hru, hq, exceptIsOk]] at hok
            exact absurd hok (by decide)

/-- Zero statistics map used by the witnesses. -/
def zeroStats : String → Nat := fun _ => 0

def r1w : Rule := ⟨"a.", "1.2.3.4", "", "", true⟩

def r2w : Rule := ⟨"*.", "refused", "", "", true⟩

theorem first_match_wins_witness :
    (resolve false ([] ++ r1w :: ([] ++ r2w :: [])) "a." "A" "t" "c" 0 upErrW
        zeroStats []).stats r1w.pattern = zeroStats r1w.pattern + 1
    ∧ (resolve false ([] ++ r1w :: ([] ++ r2w :: [])) "a." "A" "t" "c" 0 upErrW
        zeroStats []).stats "*." = zeroStats "*."
    ∧ ((resolve false ([] ++ r1w :: ([] ++ r2w :: [])) "a." "A" "t" "c" 0 upErrW
          zeroStats []).action = "refused @ " ++ r1w.pattern
       ∨ (resolve false ([] ++ r1w :: ([] ++ r2w :: [])) "a." "A" "t" "c" 0 upErrW
          zeroStats []).action = "redirect to " ++ pystrip r1w.ip ++ " @ " ++ r1w.pattern) :=
  first_match_wins [] [] [] r1w r2w "a." "A" "t" "c" 0 upErrW zeroStats [] "*."
    (by simp) (by decide) (by decide) (by decide) (by decide)

def upOkW : String → Except String IPv4 := fun _ => .ok (1, 2, 3, 4)

theorem upstream_fallback_witness :
    resolve false [] "openai.com." "A" "t" "c" 0 upOkW zeroStats []
      = match upOkW (rstripDotsS "openai.com.") with
        | .ok ip =>
          ⟨.ok (.a (ipv4ToString ip) 60), "resolved external " ++ ipv4ToString ip, zeroStats,
            pushLog [] ⟨"t", "c", "openai.com." ++ " (" ++ "A" ++ ")",
              "resolved external " ++ ipv4ToString ip⟩⟩
        | .error e =>
          ⟨.ok .empty, "error " ++ e, zeroStats,
            pushLog [] ⟨"t", "c", "openai.com." ++ " (" ++ "A" ++ ")", "error " ++ e⟩⟩ :=
  upstream_fallback [] "openai.com." "A" "t" "c" 0 upOkW zeroStats [] (by simp)

theorem resolve_total_on_wellformed_targets_witness :
    exceptIsOk (resolve false [r1w, r2w] "b." "A" "t" "c" 0 upErrW
      zeroStats []).result = true :=
  resolve_total_on_wellformed_targets false [r1w, r2w] "b." "A" "t" "c" 0 upErrW
    zeroStats [] (by decide)

def refW : Rule := ⟨"a.", "ReFuSeD", "", "", true⟩

theorem refused_target_reply_witness :
    resolve false ([] ++ refW :: []) "a." "A" "t" "c" 0 upErrW zeroStats []
      = ⟨.ok .refused, "refused @ " ++ refW.pattern, incStats zeroStats refW.pattern,
          pushLog [] ⟨"t", "c", "a." ++ " (" ++ "A" ++ ")", "refused @ " ++ refW.pattern⟩⟩
    ∧ (resolve false ([] ++ refW :: []) "a." "A" "t" "c" 0 upErrW zeroStats
        []).stats refW.pattern = zeroStats refW.pattern + 1 :=
  refused_target_reply [] [] refW "a." "A" "t" "c" 0 upErrW zeroStats []
    (by simp) (by decide) (by decide)

def eW : Entry := ⟨"t", "c", "q", "a"⟩

theorem activity_log_bounded_witness :
    (resolve true [] "d." "A" "t" "c" 0 upErrW zeroStats []).logs
      = pushLog [] ⟨"t", "c", "d." ++ " (" ++ "A" ++ ")",
          (resolve true [] "d." "A" "t" "c" 0 upErrW zeroStats []).action⟩
    ∧ (resolve true [] "d." "A" "t" "c" 0 upErrW zeroStats []).logs.length ≤ 100
    ∧ List.foldl pushLog [] (List.replicate 150 eW) = (List.replicate 150 eW).drop 50 :=
  activity_log_bounded true [] "d." "A" "t" "c" 0 upErrW zeroStats []
    (List.replicate 150 eW) rfl (by simp)

def rXw : Rule := ⟨"x.", "0.0.0.0", "", "", true⟩

theorem add_block_normalizes_witness :
    (∃ r, add_block "x" "0.0.0.0" "00:00" "23:59" [rXw] = [rXw] ++ [r]
      ∧ endsDot r.pattern = true)
    ∧ remove_block "x" [rXw] = [rXw]
    ∧ toggle_rule "x" [rXw] = [rXw] :=
  add_block_normalizes "x" "0.0.0.0" "00:00" "23:59" "x" [rXw] (by decide) (by decide)

end DNServer
